import Mathlib

/-!
Shallow embedding of the Collab_Room real-time collaboration server
(socket handlers for rooms, file sync, command relay, git relay, and the
deployment state machine), with theorems checking the specification
against the code.
-/

namespace CollabRoom

/-! ## Data model (mirrors the Prisma rows used by the handlers) -/

/-- A room row: owner, public flag, and the member user ids
(the join table `roomMember` flattened into a list). -/
structure Room where
  id : String
  ownerId : String
  isPublic : Bool
  members : List String
  deriving Repr, DecidableEq

/-- A project row: belongs to one room. -/
structure Project where
  id : String
  roomId : String
  deriving Repr, DecidableEq

/-- A `projectFile` row. `updatedAt` is the stored timestamp in
milliseconds, as compared by the sync handler via `getTime()`. -/
structure ProjectFile where
  id : String
  projectId : String
  name : String
  path : String
  content : String
  language : String
  updatedAt : Nat
  deriving Repr, DecidableEq

/-- The owner-or-member access test used by every handler access query:
`OR: [ ownerId = userId, members some userId ]`. Note: no `isPublic`
clause appears in any socket handler query. -/
def roomAllows (r : Room) (userId : String) : Bool :=
  r.ownerId == userId || r.members.contains userId

/-- `prisma.room.findFirst` as issued by the `join-room` handler:
the room with this id, restricted to owner-or-member access. -/
def findAccessibleRoom (rooms : List Room) (roomId userId : String) : Option Room :=
  rooms.find? (fun r => r.id == roomId && roomAllows r userId)

/-- `prisma.project.findFirst` with the room access condition, as issued by
`sync-files`, `start-deployment` and `file-created`. -/
def findAccessibleProject (rooms : List Room) (projects : List Project)
    (projectId userId : String) : Option Project :=
  projects.find? (fun p =>
    p.id == projectId &&
      rooms.any (fun r => r.id == p.roomId && roomAllows r userId))

/-- `prisma.projectFile.findFirst` joined through project and room with the
access condition, as issued by `code-change` and `file-deleted`. -/
def findAccessibleFile (rooms : List Room) (projects : List Project)
    (files : List ProjectFile) (fileId userId : String) : Option ProjectFile :=
  files.find? (fun f =>
    f.id == fileId &&
      projects.any (fun p =>
        p.id == f.projectId &&
          rooms.any (fun r => r.id == p.roomId && roomAllows r userId)))

/-! ## Bridge sync reconciler: `sync-files` (src/unnamed/part_001) -/

/-- One element of the `files` array in a `sync-files` payload. -/
structure IncomingFile where
  relativePath : String
  content : String
  lastModified : Nat
  deriving Repr, DecidableEq

/-- Per-path outcome reported in `syncResults`. -/
inductive SyncStatus where
  | created
  | updated
  | skipped
  | error
  deriving Repr, DecidableEq

/-- `path.basename`: the final component of a slash-separated path. -/
def basename (p : String) : String :=
  match (p.splitOn "/").reverse with
  | [] => p
  | last :: _ => last

/-- `path.extname(...).toLowerCase()`: the dot-extension of the final
path component, or the empty string when there is none. -/
def extname (p : String) : String :=
  let base := basename p
  match (base.splitOn ".").reverse with
  | [] => ""
  | [_] => ""
  | ext :: _ => "." ++ ext.toLower

/-- `getLanguageFromExtension` from `IDEBridgeService`. -/
def getLanguageFromExtension (filePath : String) : String :=
  let ext := extname filePath
  let languageMap : List (String × String) :=
    [(".js", "javascript"), (".jsx", "javascript"),
     (".ts", "typescript"), (".tsx", "typescript"),
     (".py", "python"), (".go", "go"), (".rs", "rust"),
     (".java", "java"), (".cpp", "cpp"), (".c", "c"),
     (".cs", "csharp"), (".php", "php"), (".rb", "ruby"),
     (".swift", "swift"), (".kt", "kotlin"), (".dart", "dart"),
     (".html", "html"), (".css", "css"), (".scss", "scss"),
     (".sass", "sass"), (".json", "json"), (".xml", "xml"),
     (".yaml", "yaml"), (".yml", "yaml"), (".md", "markdown"),
     (".sql", "sql"), (".sh", "bash"), (".bash", "bash")]
  match languageMap.find? (fun kv => kv.1 == ext) with
  | some kv => kv.2
  | none => "text"

/-- `prisma.projectFile.findFirst where projectId, path` in the per-file
loop of `sync-files`. -/
def findFileByPath (files : List ProjectFile) (projectId filePath : String) :
    Option ProjectFile :=
  files.find? (fun f => f.projectId == projectId && f.path == filePath)

/-- One iteration of the `sync-files` per-file loop: look up the stored
file by path; if present and the incoming `lastModified` is strictly
greater than the stored `updatedAt`, replace the content (`updated`),
else leave the store untouched (`skipped`); if absent, create the file
(`created`). `newId` is the id the store assigns to a created row and
`now` the store clock stamped on a write. -/
def syncOneFile (files : List ProjectFile) (projectId : String)
    (file : IncomingFile) (newId : String) (now : Nat) :
    List ProjectFile × SyncStatus :=
  match findFileByPath files projectId file.relativePath with
  | some existingFile =>
      if file.lastModified > existingFile.updatedAt then
        (files.map (fun f =>
          if f.id == existingFile.id then
            { f with content := file.content, updatedAt := now }
          else f), SyncStatus.updated)
      else
        (files, SyncStatus.skipped)
  | none =>
      (files ++ [{ id := newId, projectId := projectId,
                   name := basename file.relativePath,
                   path := file.relativePath,
                   content := file.content,
                   language := getLanguageFromExtension file.relativePath,
                   updatedAt := now }], SyncStatus.created)

/-! ## Emitted socket events

Each handler's observable output is the list of emits it performs, in
program order. `toSender` is `socket.emit`, `toRoomOthers` is
`socket.to(roomId).emit` (room subscribers except the sender),
`toRoomAll` is `io.to(roomId).emit`, and `log` is `console.error`. The
`B` variants carry the `success` flag in the payload where a claim
depends on it. -/
inductive Emit where
  | toSender (event : String)
  | toSenderB (event : String) (success : Bool)
  | toRoomOthers (roomId : String) (event : String)
  | toRoomOthersB (roomId : String) (event : String) (success : Bool)
  | toRoomAll (roomId : String) (event : String)
  | log (msg : String)
  deriving Repr, DecidableEq

/-! ## Collaboration handlers (src/collaboration.ts) -/

/-- Result of the `join-room` handler: whether `socket.join(roomId)` ran,
and the emitted events. -/
structure JoinResult where
  subscribed : Bool
  events : List Emit
  deriving Repr, DecidableEq

/-- `join-room` handler: query the room restricted to owner-or-member
access; on `null`, emit a scoped error to the sender only; on a hit,
subscribe, acknowledge the sender, and notify the other subscribers. -/
def joinRoom (rooms : List Room) (userId roomId : String) : JoinResult :=
  match findAccessibleRoom rooms roomId userId with
  | none =>
      { subscribed := false, events := [Emit.toSender "error"] }
  | some _ =>
      { subscribed := true,
        events := [Emit.toSender "joined-room",
                   Emit.toRoomOthers roomId "user-joined"] }

/-- `code-change` handler: the access check joins the file through its
own project to its own room; the payload `roomId` is used only as the
broadcast target. On access, the file content is replaced
whole-snapshot and the change is fanned out to the payload room,
excluding the sender. -/
def codeChange (rooms : List Room) (projects : List Project)
    (files : List ProjectFile) (userId roomId fileId content : String)
    (now : Nat) : List ProjectFile × List Emit :=
  match findAccessibleFile rooms projects files fileId userId with
  | none =>
      (files, [Emit.toSender "error"])
  | some _ =>
      (files.map (fun f =>
        if f.id == fileId then { f with content := content, updatedAt := now }
        else f),
       [Emit.toRoomOthers roomId "code-change"])

/-- A `cursor` row keyed by (user, file). -/
structure Cursor where
  userId : String
  fileId : String
  position : Nat
  line : Nat
  column : Nat
  selection : Option String
  lastActivity : Nat
  deriving Repr, DecidableEq

/-- `prisma.cursor.upsert` on the key (userId, fileId). -/
def cursorUpsert (cursors : List Cursor) (userId fileId : String)
    (position line column : Nat) (selection : Option String) (now : Nat) :
    List Cursor :=
  if cursors.any (fun c => c.userId == userId && c.fileId == fileId) then
    cursors.map (fun c =>
      if c.userId == userId && c.fileId == fileId then
        { c with position := position, line := line, column := column,
                 selection := selection, lastActivity := now }
      else c)
  else
    cursors ++ [{ userId := userId, fileId := fileId, position := position,
                  line := line, column := column, selection := selection,
                  lastActivity := now }]

/-- `cursor-update` handler. The upsert and the broadcast sit in one
`try` block: when the upsert succeeds (`persistOk`), the broadcast to the
other room subscribers follows; when it throws, control jumps to the
`catch`, which only logs — the broadcast is skipped and nothing is sent
to the sender. -/
def cursorUpdate (cursors : List Cursor) (persistOk : Bool)
    (userId roomId fileId : String) (position line column : Nat)
    (selection : Option String) (now : Nat) : List Cursor × List Emit :=
  if persistOk then
    (cursorUpsert cursors userId fileId position line column selection now,
     [Emit.toRoomOthers roomId "cursor-update"])
  else
    (cursors, [Emit.log "Cursor update error"])

/-! ## Bridge relay handlers (src/unnamed/part_001) -/

/-- Result of `pull-files`. -/
inductive PullResult where
  | error (msg : String)
  | pulled (files : List ProjectFile)
  deriving Repr, DecidableEq

/-- `pull-files` handler: only an authentication check on the socket; the
query filters by `projectId`, and by `updatedAt > lastSync` only when
`lastSync` is truthy (present and nonzero). No room-membership query is
issued. -/
def pullFiles (socketUserId : Option String) (files : List ProjectFile)
    (projectId : String) (lastSync : Option Nat) : PullResult :=
  match socketUserId with
  | none => PullResult.error "Not authenticated"
  | some _ =>
      PullResult.pulled (files.filter (fun f =>
        f.projectId == projectId &&
          (match lastSync with
           | some t => if t != 0 then decide (f.updatedAt > t) else true
           | none => true)))

/-- The fixed allow-list of the `execute-command` handler. -/
def safeCommands : List String :=
  ["npm install", "npm run build", "npm run test", "npm run lint",
   "yarn install", "yarn build", "yarn test", "yarn lint",
   "pnpm install", "pnpm build", "pnpm test", "pnpm lint",
   "python -m pytest", "python -m pip install -r requirements.txt",
   "go build", "go test", "go mod tidy",
   "cargo build", "cargo test", "cargo check"]

/-- `command.startsWith(safe)`: the character sequence of `safe` is a
prefix of the character sequence of `command`. -/
def strStartsWith (command safe : String) : Bool :=
  safe.toList.isPrefixOf command.toList

/-- `safeCommands.some(safe => command.startsWith(safe))`. -/
def commandAllowed (command : String) : Bool :=
  safeCommands.any (fun safe => strStartsWith command safe)

/-- Outcome of an external process run (`execAsync`): normal completion
or a thrown fault carrying the captured streams. -/
inductive ExecOutcome where
  | ok (stdout stderr : String)
  | fault (message stdout stderr : String)
  deriving Repr, DecidableEq

/-- `execute-command` handler. Returns whether a process was spawned
(control reached `execAsync`) and the emitted events. A command that
fails the allow-list check is rejected with `command-error` before any
spawn; an allowed command that faults is reported to the caller as
`command-completed` with `success: false` and broadcast likewise —
never as a protocol error. -/
def executeCommand (authenticated : Bool) (roomId command : String)
    (outcome : ExecOutcome) : Bool × List Emit :=
  if !authenticated then
    (false, [Emit.toSender "command-error"])
  else if !(commandAllowed command) then
    (false, [Emit.toSender "command-error"])
  else
    match outcome with
    | ExecOutcome.ok _ _ =>
        (true, [Emit.toSender "command-started",
                Emit.toSenderB "command-completed" true,
                Emit.toRoomOthersB roomId "team-command-executed" true])
    | ExecOutcome.fault _ _ _ =>
        (true, [Emit.toSender "command-started",
                Emit.log "Command execution error",
                Emit.toSenderB "command-completed" false,
                Emit.toRoomOthersB roomId "team-command-executed" false])

/-- The six git operation names accepted by `git-operation`. -/
inductive GitOp where
  | status
  | add
  | commit
  | push
  | pull
  | branch
  deriving Repr, DecidableEq

/-- The operation name as a string, as stored in the audit row. -/
def gitOpName : GitOp → String
  | GitOp.status => "status"
  | GitOp.add => "add"
  | GitOp.commit => "commit"
  | GitOp.push => "push"
  | GitOp.pull => "pull"
  | GitOp.branch => "branch"

/-- The optional `params` of a `git-operation` payload. -/
structure GitParams where
  files : Option (List String)
  message : Option String
  remote : Option String
  branch : Option String
  deriving Repr, DecidableEq

/-- JavaScript `x || dflt` over an optional string: the default is used
when the value is absent or the empty string (falsy). -/
def orDefault (x : Option String) (dflt : String) : String :=
  match x with
  | some s => if s == "" then dflt else s
  | none => dflt

/-- The command string built by the `switch` in `git-operation`. For
`add`, `params?.files?.join(' ') || '.'` falls back to `.` when the list
is absent or joins to the empty string. -/
def gitCommand (op : GitOp) (params : GitParams) : String :=
  match op with
  | GitOp.status => "git status --porcelain"
  | GitOp.add =>
      "git add " ++
        (match params.files with
         | some fs => orDefault (some (String.intercalate " " fs)) "."
         | none => ".")
  | GitOp.commit =>
      "git commit -m \"" ++ orDefault params.message "Collaborative commit" ++ "\""
  | GitOp.push =>
      "git push " ++ orDefault params.remote "origin" ++ " " ++
        orDefault params.branch "main"
  | GitOp.pull =>
      "git pull " ++ orDefault params.remote "origin" ++ " " ++
        orDefault params.branch "main"
  | GitOp.branch => "git branch -a"

/-- A `gitOperation` audit row. -/
structure GitAudit where
  userId : String
  projectId : String
  operation : String
  command : String
  result : String
  success : Bool
  deriving Repr, DecidableEq

/-- `git-operation` handler. `registered` is the guard
`socket.userId && socket.ideInfo?.workspacePath`. On a successful
command the handler emits `git-result` with `success: true`, appends the
audit row, and broadcasts to the room; on a thrown fault the `catch`
only emits `git-result` with `success: false` — no audit row is written
and no room broadcast occurs. -/
def gitOperation (audits : List GitAudit) (registered : Bool)
    (userId projectId roomId : String) (op : GitOp) (params : GitParams)
    (outcome : ExecOutcome) : List GitAudit × List Emit :=
  if !registered then
    (audits, [Emit.toSender "git-error"])
  else
    match outcome with
    | ExecOutcome.ok stdout _ =>
        (audits ++ [{ userId := userId, projectId := projectId,
                      operation := gitOpName op,
                      command := gitCommand op params,
                      result := stdout, success := true }],
         [Emit.toSenderB "git-result" true,
          Emit.toRoomOthersB roomId "team-git-operation" true])
    | ExecOutcome.fault _ _ _ =>
        (audits, [Emit.log "Git operation error",
                  Emit.toSenderB "git-result" false])

/-! ## Deployment orchestrator (src/deployment.ts) -/

/-- The five deployment statuses. -/
inductive DStatus where
  | pending
  | building
  | deploying
  | success
  | failed
  deriving Repr, DecidableEq, BEq

/-- An entry of the in-memory `activeDeployments` map. -/
structure DeploymentStatusRec where
  id : String
  status : DStatus
  progress : Nat
  logs : List String
  url : Option String
  error : Option String
  startTime : Nat
  endTime : Option Nat
  deriving Repr, DecidableEq

/-- A durable `deployment` row (status stored uppercase; same values). -/
structure DurableDeployment where
  id : String
  projectId : String
  userId : String
  status : DStatus
  error : Option String
  endedAt : Option Nat
  deriving Repr, DecidableEq

/-- The deployment-relevant state: the in-memory table and the durable
store rows. -/
structure DeployState where
  activeDeployments : List (String × DeploymentStatusRec)
  durable : List DurableDeployment
  deriving Repr, DecidableEq

/-- `start-deployment` handler up to launching the background task.
`userFound` is whether the decoded token resolves to a user row. On a
missing user or a failed project access query, a `deployment-error` is
emitted and the state is returned untouched (the in-memory put and the
durable create both sit after the access check). -/
def startDeployment (st : DeployState) (rooms : List Room)
    (projects : List Project) (userFound : Bool)
    (userId projectId roomId newId : String) (now : Nat) :
    DeployState × List Emit :=
  if !userFound then
    (st, [Emit.toSender "deployment-error"])
  else
    match findAccessibleProject rooms projects projectId userId with
    | none =>
        (st, [Emit.toSender "deployment-error"])
    | some _ =>
        ({ activeDeployments := st.activeDeployments ++
             [(newId, { id := newId, status := DStatus.pending, progress := 0,
                        logs := [], url := none, error := none,
                        startTime := now, endTime := none })],
           durable := st.durable ++
             [{ id := newId, projectId := projectId, userId := userId,
                status := DStatus.pending, error := none, endedAt := none }] },
         [Emit.toSender "deployment-started",
          Emit.toRoomOthers roomId "team-deployment-started"])

/-- `cancel-deployment` handler. After `jwt.verify` succeeds
(`tokenValid`), the handler reads only the in-memory table: the decoded
caller identity (`callerUserId`) and the room/project/membership tables
are never consulted. A deployment in `pending` or `building` is set to
`failed` with a cancellation error and an end time, in memory and in the
durable row; any other status (or an unknown id) leaves everything
unchanged with no emit. An invalid token lands in the `catch`. -/
def cancelDeployment (st : DeployState) (tokenValid : Bool)
    (callerUserId : String) (rooms : List Room) (projects : List Project)
    (deploymentId roomId : String) (now : Nat) : DeployState × List Emit :=
  if !tokenValid then
    (st, [Emit.log "Cancel deployment error", Emit.toSender "deployment-error"])
  else
    match st.activeDeployments.find? (fun kv => kv.1 == deploymentId) with
    | some kv =>
        if kv.2.status == DStatus.pending || kv.2.status == DStatus.building then
          ({ activeDeployments := st.activeDeployments.map (fun e =>
               if e.1 == deploymentId then
                 (e.1, { e.2 with status := DStatus.failed,
                                  error := some "Cancelled by user",
                                  endTime := some now })
               else e),
             durable := st.durable.map (fun d =>
               if d.id == deploymentId then
                 { d with status := DStatus.failed,
                          error := some "Cancelled by user",
                          endedAt := some now }
               else d) },
           [Emit.toSender "deployment-cancelled",
            Emit.toRoomOthers roomId "team-deployment-cancelled"])
        else
          (st, [])
    | none =>
        (st, [])

/-! ## The background task of `processDeployment` as a status writer

`processDeployment` mutates `deployment.status` through `updateProgress`
and, in its `catch`, through a direct assignment. The writes, in program
order, on a run where every awaited operation succeeds are:
`building` (10), `building` (20), `building` (40), `building` (60, only
when a dependency manifest is present), `building` (70),
`deploying` (80), `success` (100). Every gap between consecutive writes
contains awaited operations that can throw, and further awaited
operations (the durable update, the cleanup) follow the `success` write;
a throw anywhere jumps to the `catch`, which writes `failed` and ends
the task. The task contains no check of externally set status: a
concurrent `cancel-deployment` write is simply overwritten by the next
`updateProgress`. -/

/-- The status writes of a fault-free run; `hasManifest` selects whether
the extra `building` (60) write happens. -/
def fullWrites (hasManifest : Bool) : List DStatus :=
  (if hasManifest then List.replicate 5 DStatus.building
   else List.replicate 4 DStatus.building) ++
    [DStatus.deploying, DStatus.success]

/-- The status writes of one task run. `failAfter = none` is the
fault-free run; `failAfter = some k` (with `1 ≤ k ≤ (fullWrites m).length`)
is a run whose first thrown fault occurs after the k-th write, so the
first k writes happen and the `catch` then writes `failed`. -/
def taskWrites (hasManifest : Bool) (failAfter : Option Nat) : List DStatus :=
  match failAfter with
  | none => fullWrites hasManifest
  | some k => (fullWrites hasManifest).take k ++ [DStatus.failed]

/-- An atomic status-affecting step: a task write, or the
`cancel-deployment` handler firing (guarded on `pending`/`building`). -/
inductive Step where
  | write (s : DStatus)
  | cancel
  deriving Repr, DecidableEq, BEq

/-- Effect of one step on the status field. A task write is an
unconditional assignment; a cancel assigns `failed` only from `pending`
or `building` and is otherwise a no-op. -/
def applyStep (d : DStatus) : Step → DStatus
  | Step.write s => s
  | Step.cancel =>
      if d == DStatus.pending || d == DStatus.building then DStatus.failed else d

/-- The statuses the deployment passes through, starting from `d`,
under a step sequence. -/
def statusTrace (d : DStatus) : List Step → List DStatus
  | [] => [d]
  | s :: rest => d :: statusTrace (applyStep d s) rest

/-- Collapse consecutive duplicates: the sequence of statuses the
deployment takes on, counting a re-assignment of the current status as
staying in it. -/
def dedupConsec : List DStatus → List DStatus
  | [] => []
  | [a] => [a]
  | a :: b :: rest =>
      if a == b then dedupConsec (b :: rest) else a :: dedupConsec (b :: rest)

/-- The status sequences the specification allows: a prefix of
`pending, building, deploying, success`, of `pending, building, failed`,
or of `pending, building, deploying, failed`. -/
def validSeq (l : List DStatus) : Bool :=
  l.isPrefixOf [DStatus.pending, DStatus.building, DStatus.deploying, DStatus.success] ||
  l.isPrefixOf [DStatus.pending, DStatus.building, DStatus.failed] ||
  l.isPrefixOf [DStatus.pending, DStatus.building, DStatus.deploying, DStatus.failed]

/-! ## Helper lemmas about `List.find?` -/

/-- `find?` commutes with a map that does not change the predicate. -/
theorem find_map_pres {α : Type} (p : α → Bool) (g : α → α)
    (hp : ∀ a, p (g a) = p a) (l : List α) :
    (l.map g).find? p = (l.find? p).map g := by
  induction l with
  | nil => rfl
  | cons a rest ih =>
      simp only [List.map_cons, List.find?]
      rw [hp a]
      cases h : p a with
      | true => rfl
      | false => simpa using ih

/-- `find?` over an append skips a first part in which nothing matches. -/
theorem find_append_none {α : Type} (p : α → Bool) (l1 l2 : List α)
    (h : l1.find? p = none) : (l1 ++ l2).find? p = l2.find? p := by
  induction l1 with
  | nil => rfl
  | cons a rest ih =>
      simp only [List.find?] at h ⊢
      cases ha : p a with
      | true => rw [ha] at h; simp at h
      | false =>
          rw [ha] at h
          simp only [List.cons_append, List.find?, ha]
          exact ih h

/-- `find?` succeeds exactly when `any` does. -/
theorem find_isSome_eq_any {α : Type} (p : α → Bool) (l : List α) :
    (l.find? p).isSome = l.any p := by
  induction l with
  | nil => rfl
  | cons a rest ih =>
      simp only [List.find?, List.any_cons]
      cases ha : p a with
      | true => rfl
      | false => simpa using ih

/-- A found element satisfies the predicate. -/
theorem find_some_pred {α : Type} (p : α → Bool) (l : List α) (a : α)
    (h : l.find? p = some a) : p a = true := by
  induction l with
  | nil => simp [List.find?] at h
  | cons b rest ih =>
      simp only [List.find?] at h
      cases hb : p b with
      | true => rw [hb] at h; simp at h; rw [← h]; exact hb
      | false => rw [hb] at h; simp at h; exact ih h

/-! ## Claims -/

/-- C2: for every `sync-files` batch file whose path exists on the
server, a strictly greater incoming timestamp replaces the stored
content with result `updated`; an equal or earlier timestamp leaves the
store unchanged with result `skipped`; a path the server does not have
is created with result `created`. -/
theorem syncOneFile_lww (files : List ProjectFile) (projectId : String)
    (file : IncomingFile) (newId : String) (now : Nat) :
    (∀ existingFile,
      findFileByPath files projectId file.relativePath = some existingFile →
      (file.lastModified > existingFile.updatedAt →
        (syncOneFile files projectId file newId now).2 = SyncStatus.updated ∧
        findFileByPath (syncOneFile files projectId file newId now).1
            projectId file.relativePath =
          some { existingFile with content := file.content, updatedAt := now }) ∧
      (¬ file.lastModified > existingFile.updatedAt →
        (syncOneFile files projectId file newId now).2 = SyncStatus.skipped ∧
        (syncOneFile files projectId file newId now).1 = files)) ∧
    (findFileByPath files projectId file.relativePath = none →
      (syncOneFile files projectId file newId now).2 = SyncStatus.created ∧
      findFileByPath (syncOneFile files projectId file newId now).1
          projectId file.relativePath =
        some { id := newId, projectId := projectId,
               name := basename file.relativePath,
               path := file.relativePath, content := file.content,
               language := getLanguageFromExtension file.relativePath,
               updatedAt := now }) := by
  constructor
  · intro existingFile hfind
    constructor
    · intro hgt
      simp only [syncOneFile, hfind, if_pos hgt]
      refine ⟨trivial, ?_⟩
      unfold findFileByPath at hfind ⊢
      rw [find_map_pres _ _ (fun f => by cases hid : f.id == existingFile.id <;> simp [hid]) files, hfind]
      simp
    · intro hle
      simp only [syncOneFile, hfind, if_neg hle]
      exact ⟨trivial, trivial⟩
  · intro hnone
    simp only [syncOneFile, hnone]
    refine ⟨trivial, ?_⟩
    unfold findFileByPath at hnone ⊢
    rw [find_append_none _ _ _ hnone]
    simp [List.find?]

/-- C2 witness: a concrete update, skip and create. -/
theorem syncOneFile_lww_witness :
    (syncOneFile
        [{ id := "f1", projectId := "p1", name := "a.txt", path := "a.txt",
           content := "old", language := "text", updatedAt := 50 }]
        "p1" { relativePath := "a.txt", content := "v1", lastModified := 100 }
        "f2" 100).2 = SyncStatus.updated := by
  have h := (syncOneFile_lww
      [{ id := "f1", projectId := "p1", name := "a.txt", path := "a.txt",
         content := "old", language := "text", updatedAt := 50 }]
      "p1" { relativePath := "a.txt", content := "v1", lastModified := 100 }
      "f2" 100).1
      { id := "f1", projectId := "p1", name := "a.txt", path := "a.txt",
        content := "old", language := "text", updatedAt := 50 }
      (by rfl)
  exact (h.1 (by decide)).1

/-- C3 counterexample: with a failing persistence step, the
`cursor-update` handler emits only a log entry — the room broadcast does
not proceed, contradicting the claim that the broadcast happens
regardless of persistence. -/
theorem cursorUpdate_persist_failure_skips_broadcast :
    (cursorUpdate [] false "u1" "room1" "file1" 3 1 2 none 5).2 =
      [Emit.log "Cursor update error"] ∧
    ((cursorUpdate [] false "u1" "room1" "file1" 3 1 2 none 5).2.any
      (fun e => match e with
        | Emit.toRoomOthers _ _ => true
        | _ => false)) = false := by
  exact ⟨rfl, rfl⟩

/-- C3 amended: when persistence succeeds, the broadcast to the other
room subscribers proceeds; when persistence fails, the failure is only
logged, nothing is sent to the sender, the stored cursors are unchanged,
and the broadcast is skipped. -/
theorem cursorUpdate_broadcast_iff_persisted (cursors : List Cursor)
    (userId roomId fileId : String) (position line column : Nat)
    (selection : Option String) (now : Nat) :
    (cursorUpdate cursors true userId roomId fileId position line column
        selection now).2 = [Emit.toRoomOthers roomId "cursor-update"] ∧
    cursorUpdate cursors false userId roomId fileId position line column
        selection now = (cursors, [Emit.log "Cursor update error"]) := by
  exact ⟨rfl, rfl⟩

/-- C4 counterexample: a public room whose owner is another user and
whose member list is empty: the `join-room` handler denies the caller
and never subscribes, contradicting the claim that a public room can be
joined. -/
theorem joinRoom_public_room_denied :
    (joinRoom [{ id := "r1", ownerId := "alice", isPublic := true,
                 members := [] }] "bob" "r1").subscribed = false ∧
    (joinRoom [{ id := "r1", ownerId := "alice", isPublic := true,
                 members := [] }] "bob" "r1").events =
      [Emit.toSender "error"] := by
  exact ⟨rfl, rfl⟩

/-- C4 amended: the connection is subscribed if and only if the caller
is the room's owner or a listed member — the handler's query has no
public-room clause, so a public room grants nothing here; when the
caller is neither, the only event is an access-denied error to the
requester. -/
theorem joinRoom_owner_or_member (rooms : List Room) (userId roomId : String) :
    ((joinRoom rooms userId roomId).subscribed = true ↔
      ∃ r ∈ rooms, r.id = roomId ∧
        (r.ownerId = userId ∨ userId ∈ r.members)) ∧
    ((joinRoom rooms userId roomId).subscribed = false →
      (joinRoom rooms userId roomId).events = [Emit.toSender "error"]) := by
  constructor
  · have hiff : (joinRoom rooms userId roomId).subscribed =
        ((findAccessibleRoom rooms roomId userId).isSome) := by
      unfold joinRoom
      cases findAccessibleRoom rooms roomId userId <;> rfl
    rw [hiff, findAccessibleRoom, find_isSome_eq_any]
    simp [roomAllows, List.any_eq_true, List.contains_iff_exists_mem_beq]
  · intro hsub
    unfold joinRoom at hsub ⊢
    cases h : findAccessibleRoom rooms roomId userId with
    | none => rfl
    | some r => rw [h] at hsub; simp at hsub

/-- C4 amended witness: a denial at a concrete room. -/
theorem joinRoom_owner_or_member_witness :
    (joinRoom [{ id := "r1", ownerId := "alice", isPublic := true,
                 members := [] }] "bob" "r1").events =
      [Emit.toSender "error"] :=
  (joinRoom_owner_or_member
      [{ id := "r1", ownerId := "alice", isPublic := true, members := [] }]
      "bob" "r1").2 rfl

/-- C5: every command string failing the allow-list check is rejected
with a `command-error` to the sender and no process is spawned, whatever
the would-be outcome and for any authentication state; in particular
`rm -rf /` fails the check and is never spawned; and an allowed command
whose execution faults is reported to the caller and the room as
`success: false`, not as a protocol error. -/
theorem executeCommand_allowlist (authenticated : Bool)
    (roomId command blockedCommand msg stdout stderr : String)
    (outcome outcome2 : ExecOutcome) :
    commandAllowed "rm -rf /" = false ∧
    (commandAllowed blockedCommand = false →
      executeCommand true roomId blockedCommand outcome =
        (false, [Emit.toSender "command-error"]) ∧
      (executeCommand authenticated roomId blockedCommand outcome2).1 = false) ∧
    (executeCommand authenticated roomId "rm -rf /" outcome).1 = false ∧
    (commandAllowed command = true →
      executeCommand true roomId command (ExecOutcome.fault msg stdout stderr) =
        (true, [Emit.toSender "command-started",
                Emit.log "Command execution error",
                Emit.toSenderB "command-completed" false,
                Emit.toRoomOthersB roomId "team-command-executed" false])) := by
  refine ⟨by decide, ?_, ?_, ?_⟩
  · intro hblocked
    constructor
    · simp [executeCommand, hblocked]
    · cases authenticated with
      | false => rfl
      | true => simp [executeCommand, hblocked]
  · cases authenticated with
    | false => rfl
    | true =>
        have h : commandAllowed "rm -rf /" = false := by decide
        simp [executeCommand, h]
  · intro hallow
    simp [executeCommand, hallow]

/-- C5 witness: the rejection of a concrete blocked command and a
faulting `npm install` run at concrete inputs. -/
theorem executeCommand_allowlist_witness :
    executeCommand true "room1" "rm -rf /" (ExecOutcome.ok "" "") =
      (false, [Emit.toSender "command-error"]) ∧
    executeCommand true "room1" "npm install"
        (ExecOutcome.fault "exit 1" "" "boom") =
      (true, [Emit.toSender "command-started",
              Emit.log "Command execution error",
              Emit.toSenderB "command-completed" false,
              Emit.toRoomOthersB "room1" "team-command-executed" false]) :=
  ⟨((executeCommand_allowlist true "room1" "npm install" "rm -rf /" "exit 1" ""
        "boom" (ExecOutcome.ok "" "") (ExecOutcome.ok "" "")).2.1
      (by decide)).1,
   (executeCommand_allowlist true "room1" "npm install" "rm -rf /" "exit 1" ""
        "boom" (ExecOutcome.ok "" "") (ExecOutcome.ok "" "")).2.2.2 (by decide)⟩

/-- C6: a `start-deployment` request by an authenticated caller whose
project access query comes back empty is answered with a
`deployment-error` and leaves both the in-memory deployment table and
the durable store exactly as they were. -/
theorem startDeployment_denied_no_record (st : DeployState)
    (rooms : List Room) (projects : List Project)
    (userId projectId roomId newId : String) (now : Nat)
    (hdenied : findAccessibleProject rooms projects projectId userId = none) :
    startDeployment st rooms projects true userId projectId roomId newId now =
      (st, [Emit.toSender "deployment-error"]) := by
  simp [startDeployment, hdenied]

/-- C6 witness: a caller who is neither owner nor member of the room
holding the project. -/
theorem startDeployment_denied_no_record_witness :
    startDeployment
        { activeDeployments := [], durable := [] }
        [{ id := "r1", ownerId := "alice", isPublic := false, members := [] }]
        [{ id := "p1", roomId := "r1" }]
        true "bob" "p1" "r1" "d1" 7 =
      ({ activeDeployments := [], durable := [] },
       [Emit.toSender "deployment-error"]) :=
  startDeployment_denied_no_record
      { activeDeployments := [], durable := [] }
      [{ id := "r1", ownerId := "alice", isPublic := false, members := [] }]
      [{ id := "p1", roomId := "r1" }]
      "bob" "p1" "r1" "d1" 7 (by decide)

/-- C7 counterexample: a failing git command from a registered bridge
connection: the handler emits only `git-result` with `success: false` —
no audit row is appended and no event reaches the room, contradicting
the claim that the audit record and the broadcast happen whether the
command succeeds or fails. -/
theorem gitOperation_failure_no_audit_no_broadcast :
    gitOperation [] true "u1" "p1" "r1" GitOp.push
        { files := none, message := none, remote := none, branch := none }
        (ExecOutcome.fault "remote rejected" "" "err") =
      ([], [Emit.log "Git operation error",
            Emit.toSenderB "git-result" false]) ∧
    ((gitOperation [] true "u1" "p1" "r1" GitOp.push
        { files := none, message := none, remote := none, branch := none }
        (ExecOutcome.fault "remote rejected" "" "err")).2.any
      (fun e => match e with
        | Emit.toRoomOthersB _ _ _ => true
        | Emit.toRoomOthers _ _ => true
        | _ => false)) = false := by
  exact ⟨rfl, rfl⟩

/-- C7 amended: on a successful git command the handler persists the
audit row and broadcasts success to the room; on a failing command it
only sends `git-result` with `success: false` to the caller, with no
audit row and no room broadcast; in both cases the caller receives a
`git-result` carrying the success flag. -/
theorem gitOperation_audit_on_success_only (audits : List GitAudit)
    (userId projectId roomId : String) (op : GitOp) (params : GitParams) :
    (∀ stdout stderr,
      gitOperation audits true userId projectId roomId op params
          (ExecOutcome.ok stdout stderr) =
        (audits ++ [{ userId := userId, projectId := projectId,
                      operation := gitOpName op,
                      command := gitCommand op params,
                      result := stdout, success := true }],
         [Emit.toSenderB "git-result" true,
          Emit.toRoomOthersB roomId "team-git-operation" true])) ∧
    (∀ msg stdout stderr,
      gitOperation audits true userId projectId roomId op params
          (ExecOutcome.fault msg stdout stderr) =
        (audits, [Emit.log "Git operation error",
                  Emit.toSenderB "git-result" false])) ∧
    (∀ outcome, ∃ b,
      Emit.toSenderB "git-result" b ∈
        (gitOperation audits true userId projectId roomId op params
          outcome).2) := by
  refine ⟨fun stdout stderr => rfl, fun msg stdout stderr => rfl, ?_⟩
  intro outcome
  cases outcome with
  | ok stdout stderr => exact ⟨true, by simp [gitOperation]⟩
  | fault msg stdout stderr => exact ⟨false, by simp [gitOperation]⟩

/-- C8: after the token verifies, `cancel-deployment` reads nothing but
the in-memory deployment table — its outcome is identical for any two
callers and any two room/project tables — and a deployment in `pending`
or `building` is set to `failed` with the cancellation error and an end
time. -/
theorem cancelDeployment_no_access_check (st : DeployState)
    (u1 u2 : String) (rooms1 rooms2 : List Room)
    (projects1 projects2 : List Project) (deploymentId roomId : String)
    (now : Nat) :
    (cancelDeployment st true u1 rooms1 projects1 deploymentId roomId now =
      cancelDeployment st true u2 rooms2 projects2 deploymentId roomId now) ∧
    (∀ kv, st.activeDeployments.find? (fun e => e.1 == deploymentId) = some kv →
      (kv.2.status = DStatus.pending ∨ kv.2.status = DStatus.building) →
      (cancelDeployment st true u1 rooms1 projects1 deploymentId roomId now).2 =
        [Emit.toSender "deployment-cancelled",
         Emit.toRoomOthers roomId "team-deployment-cancelled"] ∧
      ((cancelDeployment st true u1 rooms1 projects1 deploymentId roomId
          now).1.activeDeployments.find? (fun e => e.1 == deploymentId)) =
        some (kv.1, { kv.2 with status := DStatus.failed,
                                error := some "Cancelled by user",
                                endTime := some now })) := by
  constructor
  · rfl
  · intro kv hfind hstat
    have hguard : (kv.2.status == DStatus.pending ||
        kv.2.status == DStatus.building) = true := by
      rcases hstat with h | h <;> rw [h] <;> decide
    simp only [cancelDeployment, Bool.not_true, Bool.false_eq_true,
      if_false, hfind, hguard, if_true]
    refine ⟨trivial, ?_⟩
    have hkey : kv.1 = deploymentId := by
      have := find_some_pred (fun e => e.1 == deploymentId)
        st.activeDeployments kv hfind
      simpa using this
    rw [find_map_pres (fun e => e.1 == deploymentId)
        (fun e => if e.1 == deploymentId then
            (e.1, { e.2 with status := DStatus.failed,
                             error := some "Cancelled by user",
                             endTime := some now })
          else e)
        (fun e => by cases h : e.1 == deploymentId <;> simp [h])
        st.activeDeployments, hfind]
    simp [Option.map, hkey]

/-- C8 witness: cancelling a concrete pending deployment with two
different callers and membership tables. -/
theorem cancelDeployment_no_access_check_witness :
    ((cancelDeployment
        { activeDeployments :=
            [("d1", { id := "d1", status := DStatus.pending, progress := 0,
                      logs := [], url := none, error := none,
                      startTime := 1, endTime := none })],
          durable := [] }
        true "mallory" [] [] "d1" "r1" 9).1.activeDeployments.find?
      (fun e => e.1 == "d1")) =
      some ("d1", { id := "d1", status := DStatus.failed, progress := 0,
                    logs := [], url := none,
                    error := some "Cancelled by user",
                    startTime := 1, endTime := some 9 }) :=
  ((cancelDeployment_no_access_check
      { activeDeployments :=
          [("d1", { id := "d1", status := DStatus.pending, progress := 0,
                    logs := [], url := none, error := none,
                    startTime := 1, endTime := none })],
        durable := [] }
      "mallory" "alice" [] [] [] [] "d1" "r1" 9).2
    ("d1", { id := "d1", status := DStatus.pending, progress := 0,
             logs := [], url := none, error := none,
             startTime := 1, endTime := none })
    (by rfl) (Or.inl rfl)).2

/-- C9: `pull-files` only checks that the socket is authenticated; its
result is the same function of the file table, project id and since
timestamp for any two authenticated callers, and an unauthenticated
socket gets the error. -/
theorem pullFiles_caller_independent (u1 u2 : String)
    (files : List ProjectFile) (projectId : String)
    (lastSync : Option Nat) :
    pullFiles (some u1) files projectId lastSync =
      pullFiles (some u2) files projectId lastSync ∧
    pullFiles none files projectId lastSync =
      PullResult.error "Not authenticated" := by
  exact ⟨rfl, rfl⟩

/-- C10: once the file-scoped access check passes, the `code-change`
broadcast goes to exactly the payload `roomId`, excluding the sender,
whatever `roomId` the client chose — and the persisted state does not
depend on the payload `roomId` at all. -/
theorem codeChange_broadcast_payload_room (rooms : List Room)
    (projects : List Project) (files : List ProjectFile)
    (userId fileId content : String) (now : Nat) (f : ProjectFile)
    (hacc : findAccessibleFile rooms projects files fileId userId = some f) :
    (∀ roomId,
      (codeChange rooms projects files userId roomId fileId content now).2 =
        [Emit.toRoomOthers roomId "code-change"]) ∧
    (∀ r1 r2,
      (codeChange rooms projects files userId r1 fileId content now).1 =
        (codeChange rooms projects files userId r2 fileId content now).1) := by
  constructor
  · intro roomId
    simp [codeChange, hacc]
  · intro r1 r2
    simp [codeChange, hacc]

/-- C10 witness: the access check is against the file's own room `r1`,
yet the broadcast goes to the unrelated payload room `elsewhere`. -/
theorem codeChange_broadcast_payload_room_witness :
    (codeChange
        [{ id := "r1", ownerId := "alice", isPublic := false, members := [] }]
        [{ id := "p1", roomId := "r1" }]
        [{ id := "f1", projectId := "p1", name := "a.txt", path := "a.txt",
           content := "old", language := "text", updatedAt := 0 }]
        "alice" "elsewhere" "f1" "new" 3).2 =
      [Emit.toRoomOthers "elsewhere" "code-change"] :=
  (codeChange_broadcast_payload_room
      [{ id := "r1", ownerId := "alice", isPublic := false, members := [] }]
      [{ id := "p1", roomId := "r1" }]
      [{ id := "f1", projectId := "p1", name := "a.txt", path := "a.txt",
         content := "old", language := "text", updatedAt := 0 }]
      "alice" "f1" "new" 3
      { id := "f1", projectId := "p1", name := "a.txt", path := "a.txt",
        content := "old", language := "text", updatedAt := 0 }
      (by rfl)).1 "elsewhere"

/-- A concrete legal interleaving: `cancel-deployment` fires right
after the first progress update of a task that then runs to completion
(the task contains no cancellation check, so it keeps writing). -/
def cancelInterleaving : List Step :=
  [Step.write DStatus.building, Step.cancel,
   Step.write DStatus.building, Step.write DStatus.building,
   Step.write DStatus.building, Step.write DStatus.deploying,
   Step.write DStatus.success]

/-- C1 counterexample: (a) interleaving one enabled cancel into a
fault-free task run yields the status sequence
`pending, building, failed, building, deploying, success` — `building`
is revisited and `failed` is left again, so the sequence is not a prefix
of either allowed chain; (b) even without cancel, a run whose fault
occurs after the `success` write (the durable update or the cleanup
throws) yields `pending, building, deploying, success, failed`, so
`success` is not terminal either. -/
theorem deploymentStatus_not_monotone :
    (cancelInterleaving.filterMap (fun s => match s with
        | Step.write st => some st
        | Step.cancel => none) = taskWrites false none) ∧
    cancelInterleaving.count Step.cancel = 1 ∧
    dedupConsec (statusTrace DStatus.pending cancelInterleaving) =
      [DStatus.pending, DStatus.building, DStatus.failed,
       DStatus.building, DStatus.deploying, DStatus.success] ∧
    validSeq (dedupConsec (statusTrace DStatus.pending cancelInterleaving)) =
      false ∧
    dedupConsec (statusTrace DStatus.pending
        ((taskWrites false (some 6)).map Step.write)) =
      [DStatus.pending, DStatus.building, DStatus.deploying,
       DStatus.success, DStatus.failed] ∧
    validSeq (dedupConsec (statusTrace DStatus.pending
        ((taskWrites false (some 6)).map Step.write))) = false := by
  decide

/-- C1 amended: in every run of the background task alone — any fault
point strictly before the post-`success` writes, with or without the
dependency-install stage — the status sequence is a prefix of
`pending, building, deploying, success` or of
`pending, building, [deploying,] failed`, with no status revisited; and
the cancel step is a no-op on a terminal status. The exceptions forced
by the code are the two runs of the counterexample: a cancel landing
mid-task is overwritten by the task's next update, and a fault after the
`success` write turns `success` into `failed`. -/
theorem deploymentStatus_prefix_without_cancel (m : Bool) (k : Nat)
    (h1 : 1 ≤ k) (h2 : k < (fullWrites m).length) :
    validSeq (dedupConsec (statusTrace DStatus.pending
        ((taskWrites m (some k)).map Step.write))) = true ∧
    validSeq (dedupConsec (statusTrace DStatus.pending
        ((taskWrites m none).map Step.write))) = true ∧
    applyStep DStatus.success Step.cancel = DStatus.success ∧
    applyStep DStatus.failed Step.cancel = DStatus.failed := by
  cases m with
  | false =>
      have h2' : k < 6 := by simpa [fullWrites] using h2
      refine ⟨?_, by decide, by decide, by decide⟩
      interval_cases k <;> decide
  | true =>
      have h2' : k < 7 := by simpa [fullWrites] using h2
      refine ⟨?_, by decide, by decide, by decide⟩
      interval_cases k <;> decide

/-- C1 amended witness: a run with a manifest that faults after its
third status write. -/
theorem deploymentStatus_prefix_without_cancel_witness :
    validSeq (dedupConsec (statusTrace DStatus.pending
        ((taskWrites true (some 3)).map Step.write))) = true :=
  (deploymentStatus_prefix_without_cancel true 3 (by decide) (by decide)).1

end CollabRoom
